import Mathlib

set_option autoImplicit false

/-!
Verification development for the s3-minio-starter storage pipeline.

The Python sources are shallowly embedded as Lean definitions:

* `src/hashing.py` — `sha256_bytes`, `sha256_stream` (the external
  `hashlib.sha256` object is modelled by its documented contract: the
  context accumulates absorbed bytes and `hexdigest` is the SHA-256 hex
  digest of the absorbed bytes; SHA-256 itself is implemented concretely
  below so every definition is executable).
* `src/validate.py` — `basic_validate`.
* `src/storage_client.py` — the store gateway and the atomic idempotent
  writer `_put_bytes_atomic`, `put_csv`, `put_parquet`, `exists`,
  `presign_get`, `presign_put`.  The object store is an association list
  from keys to objects; each boto3 call is a primitive on that state,
  with a fault schedule injecting the failures the spec talks about.
* `src/cli.py` — `partitioned_key`.

Machine integers are `Nat` with explicit `% 2^32` where overflow matters.
-/

namespace S3Starter

/-! ### SHA-256 (concrete implementation of the digest used by `hashing.py`) -/

/-- 32-bit modulus. -/
def w32 : Nat := 4294967296

/-- 32-bit wrapping addition. -/
def add32 (a b : Nat) : Nat := (a + b) % w32

/-- 32-bit right rotation. -/
def rotr32 (x n : Nat) : Nat := ((x >>> n) + (x <<< (32 - n))) % w32

/-- 32-bit complement. -/
def not32 (x : Nat) : Nat := Nat.xor x (w32 - 1)

/-- SHA-256 big sigma 0. -/
def bigS0 (x : Nat) : Nat := Nat.xor (Nat.xor (rotr32 x 2) (rotr32 x 13)) (rotr32 x 22)

/-- SHA-256 big sigma 1. -/
def bigS1 (x : Nat) : Nat := Nat.xor (Nat.xor (rotr32 x 6) (rotr32 x 11)) (rotr32 x 25)

/-- SHA-256 small sigma 0. -/
def smallS0 (x : Nat) : Nat := Nat.xor (Nat.xor (rotr32 x 7) (rotr32 x 18)) (x >>> 3)

/-- SHA-256 small sigma 1. -/
def smallS1 (x : Nat) : Nat := Nat.xor (Nat.xor (rotr32 x 17) (rotr32 x 19)) (x >>> 10)

/-- SHA-256 choice function. -/
def chFn (e f g : Nat) : Nat := Nat.xor (Nat.land e f) (Nat.land (not32 e) g)

/-- SHA-256 majority function. -/
def majFn (a b c : Nat) : Nat :=
  Nat.xor (Nat.xor (Nat.land a b) (Nat.land a c)) (Nat.land b c)

/-- SHA-256 round constants (FIPS 180-4, written in decimal). -/
def sha256K : List Nat :=
  [1116352408, 1899447441, 3049323471, 3921009573, 961987163,
   1508970993, 2453635748, 2870763221, 3624381080, 310598401,
   607225278, 1426881987, 1925078388, 2162078206, 2614888103,
   3248222580, 3835390401, 4022224774, 264347078, 604807628,
   770255983, 1249150122, 1555081692, 1996064986, 2554220882,
   2821834349, 2952996808, 3210313671, 3336571891, 3584528711,
   113926993, 338241895, 666307205, 773529912, 1294757372,
   1396182291, 1695183700, 1986661051, 2177026350, 2456956037,
   2730485921, 2820302411, 3259730800, 3345764771, 3516065817,
   3600352804, 4094571909, 275423344, 430227734, 506948616,
   659060556, 883997877, 958139571, 1322822218, 1537002063,
   1747873779, 1955562222, 2024104815, 2227730452, 2361852424,
   2428436474, 2756734187, 3204031479, 3329325298]

/-- The eight 32-bit working registers of SHA-256. -/
structure Sha256St where
  r0 : Nat
  r1 : Nat
  r2 : Nat
  r3 : Nat
  r4 : Nat
  r5 : Nat
  r6 : Nat
  r7 : Nat
deriving DecidableEq

/-- SHA-256 initial hash value (FIPS 180-4, written in decimal). -/
def sha256H0 : Sha256St :=
  ⟨1779033703, 3144134277, 1013904242, 2773480762,
   1359893119, 2600822924, 528734635, 1541459225⟩

/-- Big-endian 32-bit word from four bytes. -/
def beWord (b0 b1 b2 b3 : Nat) : Nat :=
  ((b0 % 256) <<< 24) + ((b1 % 256) <<< 16) + ((b2 % 256) <<< 8) + (b3 % 256)

/-- The sixteen message words of one 64-byte block. -/
def blockWords (block : List Nat) : Array Nat :=
  (List.range 16).foldl
    (fun w i => w.push (beWord (block.getD (4*i) 0) (block.getD (4*i+1) 0)
      (block.getD (4*i+2) 0) (block.getD (4*i+3) 0))) #[]

/-- Extend sixteen message words to the 64-entry schedule. -/
def extendWords (w0 : Array Nat) : Array Nat :=
  (List.range 48).foldl
    (fun w i =>
      let j := i + 16
      w.push (add32 (add32 (smallS1 (w.getD (j-2) 0)) (w.getD (j-7) 0))
        (add32 (smallS0 (w.getD (j-15) 0)) (w.getD (j-16) 0)))) w0

/-- One SHA-256 round, consuming a (constant, schedule word) pair. -/
def roundStep (st : Sha256St) (kw : Nat × Nat) : Sha256St :=
  let t1 := add32 (add32 (add32 st.r7 (bigS1 st.r4)) (add32 (chFn st.r4 st.r5 st.r6) kw.1)) kw.2
  let t2 := add32 (bigS0 st.r0) (majFn st.r0 st.r1 st.r2)
  ⟨add32 t1 t2, st.r0, st.r1, st.r2, add32 st.r3 t1, st.r4, st.r5, st.r6⟩

/-- Compress one 64-byte block into the running state. -/
def compressBlock (st : Sha256St) (block : List Nat) : Sha256St :=
  let w := extendWords (blockWords block)
  let f := (sha256K.zip w.toList).foldl roundStep st
  ⟨add32 st.r0 f.r0, add32 st.r1 f.r1, add32 st.r2 f.r2, add32 st.r3 f.r3,
   add32 st.r4 f.r4, add32 st.r5 f.r5, add32 st.r6 f.r6, add32 st.r7 f.r7⟩

/-- SHA-256 padding: append 0x80, zero bytes, and the 64-bit big-endian bit length. -/
def padMessage (msg : List Nat) : List Nat :=
  let lenBits := 8 * msg.length
  let padZeros := (55 + 64 - (msg.length % 64)) % 64
  msg ++ [0x80] ++ List.replicate padZeros 0 ++
    [(lenBits >>> 56) % 256, (lenBits >>> 48) % 256, (lenBits >>> 40) % 256,
     (lenBits >>> 32) % 256, (lenBits >>> 24) % 256, (lenBits >>> 16) % 256,
     (lenBits >>> 8) % 256, lenBits % 256]

/-- Split a byte list into 64-byte blocks. -/
def chunk64 (l : List Nat) : List (List Nat) :=
  if h : l = [] then [] else l.take 64 :: chunk64 (l.drop 64)
termination_by l.length
decreasing_by
  simp only [List.length_drop]
  exact Nat.sub_lt (List.length_pos.mpr h) (by decide)

/-- SHA-256 final state of a byte message. -/
def sha256Digest (msg : List Nat) : Sha256St :=
  (chunk64 (padMessage msg)).foldl compressBlock sha256H0

/-- Lowercase hexadecimal digit. -/
def hexDigit (n : Nat) : Char := if n < 10 then Char.ofNat (48 + n) else Char.ofNat (87 + n)

/-- Eight hex characters of one 32-bit word, most significant first. -/
def hexWord8 (w : Nat) : List Char :=
  [hexDigit ((w >>> 28) % 16), hexDigit ((w >>> 24) % 16), hexDigit ((w >>> 20) % 16),
   hexDigit ((w >>> 16) % 16), hexDigit ((w >>> 12) % 16), hexDigit ((w >>> 8) % 16),
   hexDigit ((w >>> 4) % 16), hexDigit (w % 16)]

/-- The 64 hex characters of a final SHA-256 state. -/
def digestChars (st : Sha256St) : List Char :=
  hexWord8 st.r0 ++ hexWord8 st.r1 ++ hexWord8 st.r2 ++ hexWord8 st.r3 ++
  hexWord8 st.r4 ++ hexWord8 st.r5 ++ hexWord8 st.r6 ++ hexWord8 st.r7

/-- SHA-256 hex digest of a byte list. -/
def sha256Hex (msg : List Nat) : String := String.mk (digestChars (sha256Digest msg))

/-! ### `src/hashing.py` -/

/-- `sha256_bytes(data)`: SHA256 hex digest of an in-memory byte sequence. -/
def sha256_bytes (data : List Nat) : String := sha256Hex data

/-- Model of a `hashlib.sha256()` context by its documented contract: the
context records the bytes absorbed so far and `hexdigest` hashes them. -/
structure Sha256Ctx where
  absorbed : List Nat
deriving DecidableEq

/-- `hashlib.sha256()`. -/
def sha256Init : Sha256Ctx := ⟨[]⟩

/-- `h.update(chunk)`. -/
def ctxUpdate (c : Sha256Ctx) (chunk : List Nat) : Sha256Ctx := ⟨c.absorbed ++ chunk⟩

/-- `h.hexdigest()`. -/
def ctxHexdigest (c : Sha256Ctx) : String := sha256Hex c.absorbed

/-- The read loop of `sha256_stream`: feed successive chunks into the context,
stopping at the first empty read (Python's `if not chunk: break`). -/
def absorbChunks : Sha256Ctx → List (List Nat) → Sha256Ctx
  | c, [] => c
  | c, ch :: rest => if ch = [] then c else absorbChunks (ctxUpdate c ch) rest

/-- `sha256_stream(stream)`: the stream is modelled as the list of chunks the
successive `stream.read(chunk_size)` calls return, followed by empty reads. -/
def sha256_stream (chunks : List (List Nat)) : String :=
  ctxHexdigest (absorbChunks sha256Init chunks)

/-! ### Association lists (Python `dict` / bucket key space) -/

/-- First value bound to a key in an association list. -/
def alookup {α : Type} : List (String × α) → String → Option α
  | [], _ => none
  | (k, v) :: rest, key => if k = key then some v else alookup rest key

/-- Remove every binding of a key. -/
def aerase {α : Type} (l : List (String × α)) (key : String) : List (String × α) :=
  l.filter (fun p => p.1 != key)

/-- Bind a key to a value, replacing any previous binding (`{**d, key: v}`). -/
def ainsert {α : Type} (l : List (String × α)) (key : String) (v : α) : List (String × α) :=
  (key, v) :: aerase l key

/-! ### `src/validate.py` -/

/-- The two failures `basic_validate` can raise, by the `ValueError` message. -/
inductive ValidationError where
  | emptyPayload
  | missingFields (cols : List String)
deriving DecidableEq

/-- A pandas DataFrame, abstracted to its column names and string-rendered
cells (one inner list per row).  Only the shape and the column list matter
to the embedded code. -/
structure DataFrame where
  columns : List String
  cells : List (List String)
deriving DecidableEq

/-- `df.empty`: true when either axis has length zero. -/
def DataFrame.empty (df : DataFrame) : Bool := df.cells.isEmpty || df.columns.isEmpty

/-- `basic_validate(df, required_columns)`. -/
def basic_validate (df : DataFrame) (required_columns : List String) :
    Except ValidationError Unit :=
  if df.empty then .error .emptyPayload
  else
    let missing := required_columns.filter (fun c => !(df.columns.contains c))
    if missing.isEmpty then .ok () else .error (.missingFields missing)

/-! ### Object store state and the boto3 primitives

The bucket is an association list from keys to objects.  Each boto3 call the
client makes is a primitive over that state; a `Faults` schedule says which
calls fail during one `_put_bytes_atomic` run (`headStatus` forces
`head_object` to raise a `ClientError` with that HTTP status, the three
booleans make the corresponding call raise). -/

/-- A stored object: content bytes, user metadata, tagging string. -/
structure Obj where
  content : List Nat
  metadata : List (String × String)
  tagging : String
deriving DecidableEq

/-- The bucket contents. -/
abbrev Store := List (String × Obj)

/-- Errors surfaced by the embedded client. -/
inductive WErr where
  | clientError (status : Nat)
  | uploadFailed
  | copyFailed
  | deleteFailed
  | validationFailed (e : ValidationError)
deriving DecidableEq

/-- Store operations attempted during a call, in order. -/
inductive Op where
  | head (key : String)
  | put (key : String)
  | copy (src : String) (dst : String)
  | delete (key : String)
deriving DecidableEq

/-- Which boto3 calls fail during one writer run. -/
structure Faults where
  headStatus : Option Nat
  uploadFails : Bool
  copyFails : Bool
  deleteFails : Bool

/-- The fault-free schedule. -/
def noFaults : Faults := ⟨none, false, false, false⟩

/-- `head_object`: metadata of a key, or a `ClientError` HTTP status; a
missing key surfaces as status 404. -/
def head_object (f : Faults) (st : Store) (key : String) : Except Nat Obj :=
  match f.headStatus with
  | some s => .error s
  | none =>
    match alookup st key with
    | some o => .ok o
    | none => .error 404

deriving instance DecidableEq for Except

/-- Result of one client call: bucket state, attempted operations, outcome. -/
structure WriteResult where
  store : Store
  trace : List Op
  result : Except WErr String
deriving DecidableEq

/-! ### `src/storage_client.py` -/

/-- `StorageClient.exists(key)` (named `existsKey` because `exists` is
reserved in Lean). -/
def existsKey (f : Faults) (st : Store) (key : String) : Except WErr Bool :=
  match head_object f st key with
  | .ok _ => .ok true
  | .error s => if s = 404 then .ok false else .error (.clientError s)

/-- Characters after the last slash (`os.path.basename`). -/
def afterLastSlash (l : List Char) : List Char :=
  l.foldl (fun acc c => if c = '/' then [] else acc ++ [c]) []

/-- `os.path.basename`. -/
def basename (s : String) : String := String.mk (afterLastSlash s.data)

/-- Decimal digit characters of a number, most significant first; the first
argument is recursion fuel, sufficient whenever it is at least the digit
count. -/
def natCharsCore : Nat → Nat → List Char
  | 0, _ => []
  | fuel + 1, n => if n = 0 then [] else natCharsCore fuel (n / 10) ++ [hexDigit (n % 10)]

/-- Decimal rendering of a natural number (Python `str(int)` / f-string). -/
def natStr (n : Nat) : String := if n = 0 then "0" else String.mk (natCharsCore n n)

/-- The staging key `f"staging/{int(time.time()*1000)}-{os.path.basename(final_key)}"`;
the millisecond clock reading is an explicit argument. -/
def mkStagingKey (nowMs : Nat) (final_key : String) : String :=
  "staging/" ++ natStr nowMs ++ "-" ++ basename final_key

/-- `"&".join(f"{k}={v}" for k, v in tags.items())`, empty for no tags. -/
def mkTagStr (tags : List (String × String)) : String :=
  String.intercalate "&" (tags.map (fun p => p.1 ++ "=" ++ p.2))

/-- `StorageClient._put_bytes_atomic(data, final_key, metadata, tags)`:
hash the payload, skip when the final key already holds an object whose
`content_sha256` metadata matches, otherwise upload to a fresh staging key,
commit by copy with REPLACE metadata, and delete the staging key. -/
def put_bytes_atomic (f : Faults) (st : Store) (data : List Nat) (final_key : String)
    (metadata : List (String × String)) (tags : List (String × String))
    (nowMs : Nat) : WriteResult :=
  let content_sha := sha256_bytes data
  let staging_key := mkStagingKey nowMs final_key
  let newMeta := ainsert metadata "content_sha256" content_sha
  let tag_str := mkTagStr tags
  let proceed : WriteResult :=
    if f.uploadFails then
      ⟨st, [.head final_key, .put staging_key], .error .uploadFailed⟩
    else
      let st1 := ainsert st staging_key ⟨data, newMeta, ""⟩
      if f.copyFails then
        ⟨st1, [.head final_key, .put staging_key, .copy staging_key final_key],
          .error .copyFailed⟩
      else
        match alookup st1 staging_key with
        | none =>
          ⟨st1, [.head final_key, .put staging_key, .copy staging_key final_key],
            .error (.clientError 404)⟩
        | some src =>
          let st2 := ainsert st1 final_key ⟨src.content, newMeta, tag_str⟩
          if f.deleteFails then
            ⟨st2, [.head final_key, .put staging_key, .copy staging_key final_key,
              .delete staging_key], .error .deleteFailed⟩
          else
            ⟨aerase st2 staging_key, [.head final_key, .put staging_key,
              .copy staging_key final_key, .delete staging_key], .ok "uploaded"⟩
  match head_object f st final_key with
  | .ok obj =>
    if alookup obj.metadata "content_sha256" = some content_sha then
      ⟨st, [.head final_key], .ok "skipped"⟩
    else proceed
  | .error s =>
    if s = 404 then proceed
    else ⟨st, [.head final_key], .error (.clientError s)⟩

/-- Python truthiness fallback `x or d` for an optional list argument:
`None` and the empty list both fall back to the default. -/
def pyOrList {α : Type} (o : Option (List α)) (d : List α) : List α :=
  match o with
  | none => d
  | some [] => d
  | some l => l

/-- Model of pandas `df.to_csv(index=False)` (external library): header row
then cell rows, comma-separated, newline-terminated. -/
def to_csv (df : DataFrame) : String :=
  String.intercalate "\n"
    (String.intercalate "," df.columns :: df.cells.map (String.intercalate ",")) ++ "\n"

/-- Bytes of a string; the UTF-8 encoding of the external runtime is
abstracted to the character codepoints. -/
def strBytes (s : String) : List Nat := s.data.map Char.toNat

/-- Modelled from the spec: the gzip container produced by the external
`gzip.GzipFile` (missing from `src/`), §4.4 — a container wrapping the
payload bytes whose header records a timestamp; the byte layout is
abstracted to magic bytes, the header timestamp, and the payload. -/
def gzipBytes (mtime : Nat) (data : List Nat) : List Nat :=
  [31, 139, 8, 0, (mtime >>> 24) % 256, (mtime >>> 16) % 256,
   (mtime >>> 8) % 256, mtime % 256] ++ data

/-- Modelled from the spec: the columnar binary encoding produced by the
external `df.to_parquet` (missing from `src/`), §4.4 — a serialization of
the frame, abstracted as a tagged rendering of its columns and cells. -/
def parquetBytes (df : DataFrame) : List Nat := strBytes ("PAR1" ++ to_csv df)

/-- `StorageClient.put_csv(df, key, compress, required_columns, tags, metadata)`.
The gzip header clock reading is the explicit `gzMtime` argument. -/
def put_csv (f : Faults) (st : Store) (df : DataFrame) (key : String)
    (compress : Option String) (required_columns : Option (List String))
    (tags : Option (List (String × String))) (metadata : Option (List (String × String)))
    (nowMs gzMtime : Nat) : WriteResult :=
  match basic_validate df (pyOrList required_columns df.columns) with
  | .error e => ⟨st, [], .error (.validationFailed e)⟩
  | .ok _ =>
    let csv_bytes := strBytes (to_csv df)
    let data := if compress = some "gzip" then gzipBytes gzMtime csv_bytes else csv_bytes
    put_bytes_atomic f st data key (pyOrList metadata [("schema_version", "1")])
      (pyOrList tags []) nowMs

/-- `StorageClient.put_parquet(df, key, required_columns, tags, metadata)`. -/
def put_parquet (f : Faults) (st : Store) (df : DataFrame) (key : String)
    (required_columns : Option (List String))
    (tags : Option (List (String × String))) (metadata : Option (List (String × String)))
    (nowMs : Nat) : WriteResult :=
  match basic_validate df (pyOrList required_columns df.columns) with
  | .error e => ⟨st, [], .error (.validationFailed e)⟩
  | .ok _ =>
    put_bytes_atomic f st (parquetBytes df) key (pyOrList metadata [("schema_version", "1")])
      (pyOrList tags []) nowMs

/-- A presigned URL, abstracted (modelled from the spec, §6: the URL string
built by the external `generate_presigned_url` is opaque; what the client
chooses is the operation, key and TTL). -/
structure PresignedUrl where
  op : String
  key : String
  expiresIn : Int
deriving DecidableEq

/-- `ttl = expires or int(settings.PRESIGN_DEFAULT_EXPIRES)`: Python `or`
falls back on `None` and on `0`. -/
def presignTtl (expires : Option Int) (defaultExpires : Int) : Int :=
  match expires with
  | none => defaultExpires
  | some v => if v = 0 then defaultExpires else v

/-- `StorageClient.presign_get(key, expires)`; the configured default TTL is
an explicit argument. -/
def presign_get (key : String) (expires : Option Int) (defaultExpires : Int) : PresignedUrl :=
  ⟨"get_object", key, presignTtl expires defaultExpires⟩

/-- `StorageClient.presign_put(key, expires)`. -/
def presign_put (key : String) (expires : Option Int) (defaultExpires : Int) : PresignedUrl :=
  ⟨"put_object", key, presignTtl expires defaultExpires⟩

/-! ### `src/cli.py` -/

/-- `prefix.rstrip('/')`. -/
def rstripSlash (s : String) : String := String.mk (s.data.reverse.dropWhile (· = '/')).reverse

/-- The `f"{part:05d}"` field: decimal digits left-padded with zeros to a
minimum width of five. -/
def pad5 (part : Nat) : String :=
  String.mk (List.replicate (5 - (natStr part).length) '0') ++ natStr part

/-- The suffix chosen by `partitioned_key`. -/
def keySuffix (ext : String) (compress : Option String) : String :=
  if compress = some "gzip" ∧ ext = "csv" then ".csv.gz" else "." ++ ext

/-- `partitioned_key(prefix, dataset, day, ext, part, compress)`. -/
def partitioned_key (pre : String) (dataset : String) (day : String) (ext : String)
    (part : Nat) (compress : Option String) : String :=
  rstripSlash pre ++ "/" ++ dataset ++ "/date=" ++ day ++ "/part-" ++ pad5 part ++
    keySuffix ext compress

/-! ### Association list lemmas -/

theorem alookup_ainsert_self {α : Type} (l : List (String × α)) (k : String) (v : α) :
    alookup (ainsert l k v) k = some v := by
  simp [ainsert, alookup]

theorem alookup_aerase_ne {α : Type} (l : List (String × α)) (k k' : String) (h : k' ≠ k) :
    alookup (aerase l k) k' = alookup l k' := by
  induction l with
  | nil => rfl
  | cons p t ih =>
    by_cases hp : p.1 = k
    · have h1 : aerase (p :: t) k = aerase t k := by
        simp [aerase, List.filter_cons, hp]
      have h2 : p.1 ≠ k' := by rw [hp]; exact fun e => h e.symm
      rw [h1, ih]
      simp [alookup, h2]
    · have h1 : aerase (p :: t) k = p :: aerase t k := by
        simp [aerase, List.filter_cons, hp]
      rw [h1]
      by_cases hk' : p.1 = k'
      · simp [alookup, hk']
      · simp [alookup, hk', ih]

theorem alookup_ainsert_ne {α : Type} (l : List (String × α)) (k k' : String) (v : α)
    (h : k' ≠ k) : alookup (ainsert l k v) k' = alookup l k' := by
  have hne : k ≠ k' := fun e => h e.symm
  simp only [ainsert, alookup, if_neg hne]
  exact alookup_aerase_ne l k k' h

theorem alookup_aerase_self {α : Type} (l : List (String × α)) (k : String) :
    alookup (aerase l k) k = none := by
  induction l with
  | nil => rfl
  | cons p t ih =>
    by_cases hp : p.1 = k
    · simpa [aerase, List.filter_cons, hp] using ih
    · simpa [aerase, List.filter_cons, hp, alookup] using ih

/-! ### The staging key never collides with the final key -/

theorem noSlash_hexDigit (d : Nat) (hd : d < 10) : hexDigit d ≠ '/' := by
  have h : ∀ d : Fin 10, hexDigit d.val ≠ '/' := by decide
  exact h ⟨d, hd⟩

theorem noSlash_natCharsCore (fuel : Nat) : ∀ n : Nat, '/' ∉ natCharsCore fuel n := by
  induction fuel with
  | zero => intro n; simp [natCharsCore]
  | succ fuel ih =>
    intro n
    rw [natCharsCore]
    by_cases hz : n = 0
    · simp [hz]
    · rw [if_neg hz]
      intro hmem
      rcases List.mem_append.mp hmem with h1 | h2
      · exact ih (n / 10) h1
      · have h2' : '/' = hexDigit (n % 10) := by simpa using h2
        exact noSlash_hexDigit (n % 10) (Nat.mod_lt _ (by decide)) h2'.symm

theorem noSlash_natStr (n : Nat) : '/' ∉ (natStr n).data := by
  unfold natStr
  split
  · decide
  · exact noSlash_natCharsCore n n

theorem foldl_slash_free (ys : List Char) : ∀ acc : List Char, '/' ∉ ys →
    ys.foldl (fun acc c => if c = '/' then [] else acc ++ [c]) acc = acc ++ ys := by
  induction ys with
  | nil => intro acc _; simp
  | cons c t ih =>
    intro acc hys
    have hc : c ≠ '/' := fun e => hys (e ▸ List.mem_cons_self c t)
    have ht : '/' ∉ t := fun m => hys (List.mem_cons_of_mem c m)
    simp only [List.foldl_cons, if_neg hc]
    rw [ih (acc ++ [c]) ht]
    simp

theorem afterLastSlash_append (xs ys : List Char) (h : '/' ∉ ys) :
    afterLastSlash (xs ++ '/' :: ys) = ys := by
  unfold afterLastSlash
  rw [show xs ++ '/' :: ys = (xs ++ ['/']) ++ ys by simp, List.foldl_append,
    List.foldl_append]
  simp only [List.foldl_cons, if_pos rfl, List.foldl_nil]
  simpa using foldl_slash_free ys [] h

theorem noSlash_afterLastSlash (l : List Char) : '/' ∉ afterLastSlash l := by
  unfold afterLastSlash
  suffices h : ∀ acc : List Char, '/' ∉ acc →
      '/' ∉ l.foldl (fun acc c => if c = '/' then [] else acc ++ [c]) acc from
    h [] (by simp)
  induction l with
  | nil => intro acc hacc; simpa using hacc
  | cons c t ih =>
    intro acc hacc
    simp only [List.foldl_cons]
    by_cases hc : c = '/'
    · rw [if_pos hc]
      exact ih [] (by simp)
    · rw [if_neg hc]
      refine ih (acc ++ [c]) ?_
      intro hm
      rcases List.mem_append.mp hm with h | h
      · exact hacc h
      · exact hc (((by simpa using h) : '/' = c)).symm

theorem mkStagingKey_ne (nowMs : Nat) (k : String) : mkStagingKey nowMs k ≠ k := by
  intro he
  have hdata : (mkStagingKey nowMs k).data = k.data := congrArg String.data he
  have hshape : (mkStagingKey nowMs k).data =
      ['s', 't', 'a', 'g', 'i', 'n', 'g'] ++ '/' ::
        ((natStr nowMs).data ++ '-' :: afterLastSlash k.data) := by
    simp [mkStagingKey, basename, String.data_append]
  have hys : '/' ∉ (natStr nowMs).data ++ '-' :: afterLastSlash k.data := by
    intro hmem
    rcases List.mem_append.mp hmem with h1 | h2
    · exact noSlash_natStr nowMs h1
    · rcases List.mem_cons.mp h2 with h3 | h4
      · exact absurd h3 (by decide)
      · exact noSlash_afterLastSlash k.data h4
    -- done
  have hafter : afterLastSlash (mkStagingKey nowMs k).data =
      (natStr nowMs).data ++ '-' :: afterLastSlash k.data := by
    rw [hshape]
    exact afterLastSlash_append _ _ hys
  rw [hdata] at hafter
  have hlen := congrArg List.length hafter
  simp only [List.length_append, List.length_cons] at hlen
  omega

/-! ### Claim C8 -/

theorem absorbChunks_absorbed (chunks : List (List Nat)) : ∀ ctx : Sha256Ctx,
    (∀ c ∈ chunks, c ≠ []) →
    (absorbChunks ctx chunks).absorbed = ctx.absorbed ++ chunks.flatten := by
  induction chunks with
  | nil => intro ctx _; simp [absorbChunks]
  | cons ch rest ih =>
    intro ctx hne
    have hch : ch ≠ [] := hne ch (List.mem_cons_self ch rest)
    simp only [absorbChunks, if_neg hch]
    rw [ih (ctxUpdate ctx ch) (fun c hc => hne c (List.mem_cons_of_mem ch hc))]
    simp [ctxUpdate]

/-- C8: the streaming hash of any decomposition of a byte sequence into
non-empty chunks equals the in-memory hash of the whole sequence, and the
digest is a 64-character hex string. -/
theorem c8_hash_chunking_independent (data : List Nat) (chunks : List (List Nat))
    (hne : ∀ c ∈ chunks, c ≠ []) (hflat : chunks.flatten = data) :
    sha256_stream chunks = sha256_bytes data ∧ (sha256_bytes data).length = 64 := by
  constructor
  · unfold sha256_stream ctxHexdigest sha256_bytes
    rw [absorbChunks_absorbed chunks sha256Init hne]
    simp [sha256Init, hflat]
  · show (sha256Hex data).length = 64
    unfold sha256Hex
    show (digestChars (sha256Digest data)).length = 64
    simp [digestChars, hexWord8]

/-- C8 witness: a concrete two-chunk decomposition. -/
theorem c8_hash_chunking_independent_witness :
    sha256_stream [[1], [2, 3]] = sha256_bytes [1, 2, 3] ∧
      (sha256_bytes [1, 2, 3]).length = 64 :=
  c8_hash_chunking_independent [1, 2, 3] [[1], [2, 3]] (by decide) (by decide)

/-! ### Claim C5 -/

theorem string_length_mk (l : List Char) : (String.mk l).length = l.length := rfl

/-- C5 counterexample: with extension `"csv.gz"` and no compression the
suffix is `".csv.gz"` although compression is not gzip and the extension is
not `"csv"`, so "the suffix is `.csv.gz` exactly when compression is gzip
and the extension is csv" fails as stated. -/
theorem c5_counterexample :
    keySuffix "csv.gz" none = ".csv.gz" ∧
      ¬ ((none : Option String) = some "gzip" ∧ "csv.gz" = "csv") := by
  constructor
  · decide
  · decide

/-- C5 (amended): the concrete key example is reproduced exactly; the part
field is the decimal digits left-padded with zeros to width 5 (digits beyond
width 5 are kept unpadded); the special double suffix `.csv.gz` is chosen
whenever compression is gzip and the extension is csv, and a suffix equal to
`.csv.gz` arises only from that rule or from the extension being the literal
`"csv.gz"`. -/
theorem c5_partitioned_key_format :
    partitioned_key "curated" "rides" "2025-09-21" "csv" 0 (some "gzip") =
      "curated/rides/date=2025-09-21/part-00000.csv.gz" ∧
    (∀ part : Nat, (natStr part).length ≤ 5 → (pad5 part).length = 5) ∧
    (∀ part : Nat, 5 ≤ (natStr part).length → pad5 part = natStr part) ∧
    (∀ (ext : String) (compress : Option String),
      compress = some "gzip" ∧ ext = "csv" → keySuffix ext compress = ".csv.gz") ∧
    (∀ (ext : String) (compress : Option String), keySuffix ext compress = ".csv.gz" →
      (compress = some "gzip" ∧ ext = "csv") ∨ ext = "csv.gz") ∧
    (∀ compress : Option String, keySuffix "csv.gz" compress = ".csv.gz") := by
  refine ⟨by decide, ?_, ?_, ?_, ?_, ?_⟩
  · intro part h
    have hlen : (pad5 part).length =
        (5 - (natStr part).length) + (natStr part).length := by
      simp [pad5, String.length_append, string_length_mk]
    omega
  · intro part h
    unfold pad5
    rw [show 5 - (natStr part).length = 0 by omega]
    apply String.ext
    simp [String.data_append]
  · intro ext compress h
    simp [keySuffix, h.1, h.2]
  · intro ext compress h
    by_cases hc : compress = some "gzip" ∧ ext = "csv"
    · exact Or.inl hc
    · right
      rw [keySuffix, if_neg hc] at h
      have hd := congrArg String.data h
      simp only [String.data_append] at hd
      have hd' : '.' :: ext.data = '.' :: "csv.gz".data := hd
      apply String.ext
      exact (List.cons_eq_cons.mp hd').2
  · intro compress
    have hc : ¬ (compress = some "gzip" ∧ ("csv.gz" : String) = "csv") := by
      rintro ⟨_, h⟩
      exact absurd h (by decide)
    rw [keySuffix, if_neg hc]
    decide

/-- C5 witness: the padding fact applied at a concrete part number. -/
theorem c5_partitioned_key_format_witness : (pad5 42).length = 5 :=
  c5_partitioned_key_format.2.1 42 (by decide)

/-! ### Claim C6 -/

/-- C6: a payload with zero rows always fails with the empty-payload error;
a non-empty payload fails with a missing-fields error listing exactly the
required fields absent from its columns, and succeeds otherwise. -/
theorem c6_validate_outcomes (df : DataFrame) (required : List String) :
    (df.cells = [] → basic_validate df required = .error .emptyPayload) ∧
    (df.cells ≠ [] → df.columns ≠ [] →
      (required.filter (fun c => !(df.columns.contains c)) = [] →
        basic_validate df required = .ok ()) ∧
      (required.filter (fun c => !(df.columns.contains c)) ≠ [] →
        basic_validate df required =
          .error (.missingFields (required.filter (fun c => !(df.columns.contains c))))) ∧
      (∀ c, c ∈ required.filter (fun c => !(df.columns.contains c)) ↔
        (c ∈ required ∧ c ∉ df.columns))) := by
  constructor
  · intro h
    simp [basic_validate, DataFrame.empty, h]
  · intro hc hcol
    have hemp : df.empty = false := by
      simp [DataFrame.empty, hc, hcol]
    refine ⟨?_, ?_, ?_⟩
    · intro hm
      have hm' : ∀ x ∈ required, x ∈ df.columns := by
        intro x hx
        by_contra hnx
        have hmem : x ∈ required.filter (fun c => !(df.columns.contains c)) := by
          simp [List.mem_filter, hx, hnx]
        rw [hm] at hmem
        simp at hmem
      simp [basic_validate, hemp, hm]
      exact hm'
    · intro hm
      simp only [basic_validate, hemp, Bool.false_eq_true, if_false]
      rw [if_neg (by simpa [List.isEmpty_iff] using hm)]
    · intro c
      simp [List.mem_filter]
  -- done

/-- C6 witness: a non-empty frame missing a required column. -/
theorem c6_validate_outcomes_witness :
    basic_validate ⟨["a"], [["1"]]⟩ ["b"] = .error (.missingFields ["b"]) := by
  have h := (c6_validate_outcomes ⟨["a"], [["1"]]⟩ ["b"]).2 (by decide) (by decide)
  simpa using h.2.1 (by decide)

/-! ### Claim C7 -/

/-- C7: when validation fails, `put_csv` and `put_parquet` raise before any
store operation — the returned state is the initial store and the operation
trace is empty. -/
theorem c7_no_store_ops_before_validation (f : Faults) (st : Store) (df : DataFrame)
    (key : String) (compress : Option String) (req : Option (List String))
    (tags metadata : Option (List (String × String))) (nowMs gzMtime : Nat)
    (e : ValidationError)
    (h : basic_validate df (pyOrList req df.columns) = .error e) :
    put_csv f st df key compress req tags metadata nowMs gzMtime =
      ⟨st, [], .error (.validationFailed e)⟩ ∧
    put_parquet f st df key req tags metadata nowMs =
      ⟨st, [], .error (.validationFailed e)⟩ := by
  constructor
  · simp [put_csv, h]
  · simp [put_parquet, h]

/-- C7 witness: an empty frame aborts both uploads with no store interaction. -/
theorem c7_no_store_ops_before_validation_witness :
    put_csv noFaults [] ⟨[], []⟩ "k" (some "gzip") none none none 0 0 =
      ⟨[], [], .error (.validationFailed .emptyPayload)⟩ ∧
    put_parquet noFaults [] ⟨[], []⟩ "k" none none none 0 =
      ⟨[], [], .error (.validationFailed .emptyPayload)⟩ :=
  c7_no_store_ops_before_validation noFaults [] ⟨[], []⟩ "k" (some "gzip") none none none
    0 0 .emptyPayload (by decide)

/-! ### Claim C9 -/

/-- C9: `expires or default` — a zero or omitted expiration falls back to the
configured default TTL; with a positive configured default and a
non-negative requested expiration the issued TTL is always positive. -/
theorem c9_presign_zero_falls_back (key : String) (e : Option Int) (d : Int)
    (hd : 0 < d) (hnn : ∀ v, e = some v → 0 ≤ v) :
    ((e = none ∨ e = some 0) →
      (presign_get key e d).expiresIn = d ∧ (presign_put key e d).expiresIn = d) ∧
    0 < (presign_get key e d).expiresIn ∧ 0 < (presign_put key e d).expiresIn := by
  constructor
  · rintro (rfl | rfl) <;> simp [presign_get, presign_put, presignTtl]
  · match e with
    | none => exact ⟨hd, hd⟩
    | some v =>
      have hv : 0 ≤ v := hnn v rfl
      by_cases hz : v = 0
      · simp [presign_get, presign_put, presignTtl, hz, hd]
      · have : 0 < v := lt_of_le_of_ne hv (fun ee => hz ee.symm)
        simp [presign_get, presign_put, presignTtl, hz, this]

/-- C9 witness: an explicit zero expiration with the default TTL of 900. -/
theorem c9_presign_zero_falls_back_witness :
    (presign_get "some/key.txt" (some 0) 900).expiresIn = 900 ∧
      (presign_put "some/key.txt" (some 0) 900).expiresIn = 900 :=
  (c9_presign_zero_falls_back "some/key.txt" (some 0) 900 (by decide)
    (by intro v hv; injection hv with h; omega)).1 (Or.inr rfl)

/-! ### Behaviour lemmas for the atomic writer -/

/-- When the head probe is not fault-injected and finds a matching content
hash, the writer skips: no state change, no further operation. -/
theorem put_skip_of_matching (f : Faults) (hf : f.headStatus = none) (st : Store)
    (data : List Nat) (key : String) (m t : List (String × String)) (n : Nat) (obj : Obj)
    (ho : alookup st key = some obj)
    (hm : alookup obj.metadata "content_sha256" = some (sha256_bytes data)) :
    put_bytes_atomic f st data key m t n = ⟨st, [.head key], .ok "skipped"⟩ := by
  simp [put_bytes_atomic, head_object, hf, ho, hm]

/-- Fault-free writer behaviour when the final key holds no matching hash:
full staging, copy, delete cycle ending in `uploaded`. -/
theorem put_uploaded_of_not_matching (st : Store) (data : List Nat) (key : String)
    (m t : List (String × String)) (n : Nat)
    (h : ∀ obj, alookup st key = some obj →
      alookup obj.metadata "content_sha256" ≠ some (sha256_bytes data)) :
    put_bytes_atomic noFaults st data key m t n =
      ⟨aerase (ainsert (ainsert st (mkStagingKey n key)
          ⟨data, ainsert m "content_sha256" (sha256_bytes data), ""⟩) key
          ⟨data, ainsert m "content_sha256" (sha256_bytes data), mkTagStr t⟩)
        (mkStagingKey n key),
       [.head key, .put (mkStagingKey n key), .copy (mkStagingKey n key) key,
        .delete (mkStagingKey n key)], .ok "uploaded"⟩ := by
  have hsrc : alookup (ainsert st (mkStagingKey n key)
      ⟨data, ainsert m "content_sha256" (sha256_bytes data), ""⟩) (mkStagingKey n key) =
      some ⟨data, ainsert m "content_sha256" (sha256_bytes data), ""⟩ :=
    alookup_ainsert_self _ _ _
  rcases ho : alookup st key with _ | obj
  · simp [put_bytes_atomic, head_object, noFaults, ho, hsrc]
  · have hm := h obj ho
    simp [put_bytes_atomic, head_object, noFaults, ho, hm, hsrc]

/-- The final object the fault-free upload path commits at the final key. -/
theorem put_uploaded_store_lookup (st : Store) (data : List Nat) (key : String)
    (m t : List (String × String)) (n : Nat)
    (h : ∀ obj, alookup st key = some obj →
      alookup obj.metadata "content_sha256" ≠ some (sha256_bytes data)) :
    alookup (put_bytes_atomic noFaults st data key m t n).store key =
      some ⟨data, ainsert m "content_sha256" (sha256_bytes data), mkTagStr t⟩ := by
  rw [put_uploaded_of_not_matching st data key m t n h]
  dsimp only
  rw [alookup_aerase_ne _ _ _ (Ne.symm (mkStagingKey_ne n key))]
  exact alookup_ainsert_self _ _ _

/-- The writer never raises a validation error: its failures are store
failures. -/
theorem put_bytes_atomic_not_validation (f : Faults) (st : Store) (data : List Nat)
    (key : String) (m t : List (String × String)) (n : Nat) (e : ValidationError) :
    (put_bytes_atomic f st data key m t n).result ≠ .error (.validationFailed e) := by
  unfold put_bytes_atomic
  dsimp only
  split
  · split
    · simp
    · split
      · simp
      · split
        · simp
        · split
          · simp
          · split <;> simp
  · split
    · split
      · simp
      · split
        · simp
        · split
          · simp
          · split <;> simp
    · simp

/-! ### Claim C1 -/

/-- C1: under fault-free operation a write returns `uploaded`, or `skipped`
exactly when the final key already held an object with matching content
hash; an immediately repeated write of the same bytes to the same key is a
pure no-op: it returns `skipped`, performs only the head probe (no put, no
copy — no bytes transferred), and leaves the store untouched. -/
theorem c1_write_idempotent (st : Store) (data : List Nat) (key : String)
    (m t : List (String × String)) (n1 n2 : Nat) :
    ((put_bytes_atomic noFaults st data key m t n1).result = .ok "skipped" ∨
      (put_bytes_atomic noFaults st data key m t n1).result = .ok "uploaded") ∧
    ((put_bytes_atomic noFaults st data key m t n1).result = .ok "skipped" ↔
      (∃ obj, alookup st key = some obj ∧
        alookup obj.metadata "content_sha256" = some (sha256_bytes data))) ∧
    put_bytes_atomic noFaults
        (put_bytes_atomic noFaults st data key m t n1).store data key m t n2 =
      ⟨(put_bytes_atomic noFaults st data key m t n1).store,
       [.head key], .ok "skipped"⟩ := by
  by_cases hmatch : ∃ obj, alookup st key = some obj ∧
      alookup obj.metadata "content_sha256" = some (sha256_bytes data)
  · obtain ⟨obj, ho, hm⟩ := hmatch
    have h1 := put_skip_of_matching noFaults rfl st data key m t n1 obj ho hm
    have h2 := put_skip_of_matching noFaults rfl st data key m t n2 obj ho hm
    rw [h1]
    exact ⟨Or.inl rfl, ⟨fun _ => ⟨obj, ho, hm⟩, fun _ => rfl⟩, h2⟩
  · have hno : ∀ obj, alookup st key = some obj →
        alookup obj.metadata "content_sha256" ≠ some (sha256_bytes data) :=
      fun obj ho hm => hmatch ⟨obj, ho, hm⟩
    have h1 := put_uploaded_of_not_matching st data key m t n1 hno
    have hl := put_uploaded_store_lookup st data key m t n1 hno
    have h2 := put_skip_of_matching noFaults rfl
      (put_bytes_atomic noFaults st data key m t n1).store data key m t n2
      ⟨data, ainsert m "content_sha256" (sha256_bytes data), mkTagStr t⟩ hl
      (alookup_ainsert_self _ _ _)
    refine ⟨?_, ?_, h2⟩
    · rw [h1]; exact Or.inr rfl
    · rw [h1]
      simp only [false_iff]
      constructor
      · intro hcontra
        exact absurd hcontra (by simp)
      · intro hcontra
        exact absurd hcontra hmatch

/-- C1 witness: a fresh key on an empty store — the repeated write is a pure
head-probe no-op. -/
theorem c1_write_idempotent_witness :
    put_bytes_atomic noFaults
        (put_bytes_atomic noFaults [] [1] "ds/p" [] [] 0).store [1] "ds/p" [] [] 1 =
      ⟨(put_bytes_atomic noFaults [] [1] "ds/p" [] [] 0).store,
       [.head "ds/p"], .ok "skipped"⟩ :=
  (c1_write_idempotent [] [1] "ds/p" [] [] 0 1).2.2

/-! ### Claim C2 -/

/-- C2: a failing staging upload leaves the whole store unchanged (the call
either skipped or aborted with the upload error); a failing commit copy
leaves the object at the final key unchanged from its prior state (the call
either skipped or aborted with the copy error, possibly orphaning the
staging object). -/
theorem c2_atomicity_on_failure (st : Store) (data : List Nat) (key : String)
    (m t : List (String × String)) (n : Nat) (cb db : Bool) :
    (put_bytes_atomic ⟨none, true, cb, db⟩ st data key m t n).store = st ∧
    ((put_bytes_atomic ⟨none, true, cb, db⟩ st data key m t n).result = .ok "skipped" ∨
      (put_bytes_atomic ⟨none, true, cb, db⟩ st data key m t n).result =
        .error .uploadFailed) ∧
    alookup (put_bytes_atomic ⟨none, false, true, db⟩ st data key m t n).store key =
      alookup st key ∧
    ((put_bytes_atomic ⟨none, false, true, db⟩ st data key m t n).result = .ok "skipped" ∨
      (put_bytes_atomic ⟨none, false, true, db⟩ st data key m t n).result =
        .error .copyFailed) := by
  by_cases hmatch : ∃ obj, alookup st key = some obj ∧
      alookup obj.metadata "content_sha256" = some (sha256_bytes data)
  · obtain ⟨obj, ho, hm⟩ := hmatch
    rw [put_skip_of_matching ⟨none, true, cb, db⟩ rfl st data key m t n obj ho hm,
      put_skip_of_matching ⟨none, false, true, db⟩ rfl st data key m t n obj ho hm]
    exact ⟨rfl, Or.inl rfl, rfl, Or.inl rfl⟩
  · have hup : put_bytes_atomic ⟨none, true, cb, db⟩ st data key m t n =
        ⟨st, [.head key, .put (mkStagingKey n key)], .error .uploadFailed⟩ := by
      rcases ho : alookup st key with _ | obj
      · simp [put_bytes_atomic, head_object, ho]
      · have hm : ¬ alookup obj.metadata "content_sha256" = some (sha256_bytes data) :=
          fun hmm => hmatch ⟨obj, ho, hmm⟩
        simp [put_bytes_atomic, head_object, ho, hm]
    have hcp : put_bytes_atomic ⟨none, false, true, db⟩ st data key m t n =
        ⟨ainsert st (mkStagingKey n key)
            ⟨data, ainsert m "content_sha256" (sha256_bytes data), ""⟩,
         [.head key, .put (mkStagingKey n key), .copy (mkStagingKey n key) key],
         .error .copyFailed⟩ := by
      rcases ho : alookup st key with _ | obj
      · simp [put_bytes_atomic, head_object, ho]
      · have hm : ¬ alookup obj.metadata "content_sha256" = some (sha256_bytes data) :=
          fun hmm => hmatch ⟨obj, ho, hmm⟩
        simp [put_bytes_atomic, head_object, ho, hm]
    rw [hup, hcp]
    refine ⟨rfl, Or.inr rfl, ?_, Or.inr rfl⟩
    exact alookup_ainsert_ne _ _ _ _ (Ne.symm (mkStagingKey_ne n key))

/-- C2 witness: a failing staging upload on an empty store leaves it empty. -/
theorem c2_atomicity_on_failure_witness :
    (put_bytes_atomic ⟨none, true, false, false⟩ [] [2] "k2" [] [] 0).store = [] :=
  (c2_atomicity_on_failure [] [2] "k2" [] [] 0 false false).1

/-! ### Claim C3 (corrected) -/

/-- C3 counterexample: with the store empty, a failing staging delete makes
the call raise the delete error instead of returning `uploaded` — the
delete is not best-effort in the code (no `try`/`except` around
`delete_object`). -/
theorem c3_counterexample :
    (put_bytes_atomic ⟨none, false, false, true⟩ [] [0] "k" [] [] 0).result =
        .error .deleteFailed ∧
      (put_bytes_atomic ⟨none, false, false, true⟩ [] [0] "k" [] [] 0).result ≠
        .ok "uploaded" := by
  constructor
  · rfl
  · decide

/-- C3 (amended): after a successful commit copy, a failure of the staging
delete changes the returned outcome — the call raises the delete error
rather than returning `uploaded` — but the commit itself persists: the
final key holds the newly copied object (unless the call skipped). -/
theorem c3_delete_failure_raises (st : Store) (data : List Nat) (key : String)
    (m t : List (String × String)) (n : Nat) :
    (put_bytes_atomic ⟨none, false, false, true⟩ st data key m t n).result =
        .ok "skipped" ∨
    ((put_bytes_atomic ⟨none, false, false, true⟩ st data key m t n).result =
        .error .deleteFailed ∧
      alookup (put_bytes_atomic ⟨none, false, false, true⟩ st data key m t n).store key =
        some ⟨data, ainsert m "content_sha256" (sha256_bytes data), mkTagStr t⟩) := by
  by_cases hmatch : ∃ obj, alookup st key = some obj ∧
      alookup obj.metadata "content_sha256" = some (sha256_bytes data)
  · obtain ⟨obj, ho, hm⟩ := hmatch
    rw [put_skip_of_matching ⟨none, false, false, true⟩ rfl st data key m t n obj ho hm]
    exact Or.inl rfl
  · right
    have hsrc : alookup (ainsert st (mkStagingKey n key)
        ⟨data, ainsert m "content_sha256" (sha256_bytes data), ""⟩) (mkStagingKey n key) =
        some ⟨data, ainsert m "content_sha256" (sha256_bytes data), ""⟩ :=
      alookup_ainsert_self _ _ _
    have hdel : put_bytes_atomic ⟨none, false, false, true⟩ st data key m t n =
        ⟨ainsert (ainsert st (mkStagingKey n key)
            ⟨data, ainsert m "content_sha256" (sha256_bytes data), ""⟩) key
            ⟨data, ainsert m "content_sha256" (sha256_bytes data), mkTagStr t⟩,
         [.head key, .put (mkStagingKey n key), .copy (mkStagingKey n key) key,
          .delete (mkStagingKey n key)], .error .deleteFailed⟩ := by
      rcases ho : alookup st key with _ | obj
      · simp [put_bytes_atomic, head_object, ho, hsrc]
      · have hm : ¬ alookup obj.metadata "content_sha256" = some (sha256_bytes data) :=
          fun hmm => hmatch ⟨obj, ho, hmm⟩
        simp [put_bytes_atomic, head_object, ho, hm, hsrc]
    rw [hdel]
    exact ⟨rfl, alookup_ainsert_self _ _ _⟩

/-- C3 witness: the delete-failure outcome on an empty store. -/
theorem c3_delete_failure_raises_witness :
    (put_bytes_atomic ⟨none, false, false, true⟩ [] [3] "k3" [] [] 0).result =
        .ok "skipped" ∨
    ((put_bytes_atomic ⟨none, false, false, true⟩ [] [3] "k3" [] [] 0).result =
        .error .deleteFailed ∧
      alookup (put_bytes_atomic ⟨none, false, false, true⟩ [] [3] "k3" [] [] 0).store
          "k3" =
        some ⟨[3], ainsert [] "content_sha256" (sha256_bytes [3]), mkTagStr []⟩) :=
  c3_delete_failure_raises [] [3] "k3" [] [] 0

/-! ### Claim C4 -/

/-- C4: a head probe failing with HTTP 404 is a normal negative result — the
write proceeds to create the object and returns `uploaded` — whereas a head
failure with any other status aborts the call with that client error before
any staging upload (trace stops at the head probe, store untouched);
`exists` likewise maps 404 to `false` and re-raises anything else. -/
theorem c4_head_not_found (st : Store) (data : List Nat) (key : String)
    (m t : List (String × String)) (n : Nat) (s : Nat) (hs : s ≠ 404) :
    (put_bytes_atomic ⟨some 404, false, false, false⟩ st data key m t n).result =
        .ok "uploaded" ∧
    alookup (put_bytes_atomic ⟨some 404, false, false, false⟩ st data key m t n).store
        key =
      some ⟨data, ainsert m "content_sha256" (sha256_bytes data), mkTagStr t⟩ ∧
    put_bytes_atomic ⟨some s, false, false, false⟩ st data key m t n =
      ⟨st, [.head key], .error (.clientError s)⟩ ∧
    existsKey ⟨some 404, false, false, false⟩ st key = .ok false ∧
    existsKey ⟨some s, false, false, false⟩ st key = .error (.clientError s) := by
  have hsrc : alookup (ainsert st (mkStagingKey n key)
      ⟨data, ainsert m "content_sha256" (sha256_bytes data), ""⟩) (mkStagingKey n key) =
      some ⟨data, ainsert m "content_sha256" (sha256_bytes data), ""⟩ :=
    alookup_ainsert_self _ _ _
  have h404 : put_bytes_atomic ⟨some 404, false, false, false⟩ st data key m t n =
      ⟨aerase (ainsert (ainsert st (mkStagingKey n key)
          ⟨data, ainsert m "content_sha256" (sha256_bytes data), ""⟩) key
          ⟨data, ainsert m "content_sha256" (sha256_bytes data), mkTagStr t⟩)
        (mkStagingKey n key),
       [.head key, .put (mkStagingKey n key), .copy (mkStagingKey n key) key,
        .delete (mkStagingKey n key)], .ok "uploaded"⟩ := by
    simp [put_bytes_atomic, head_object, hsrc]
  refine ⟨?_, ?_, ?_, ?_, ?_⟩
  · rw [h404]
  · rw [h404]
    dsimp only
    rw [alookup_aerase_ne _ _ _ (Ne.symm (mkStagingKey_ne n key))]
    exact alookup_ainsert_self _ _ _
  · simp [put_bytes_atomic, head_object, hs]
  · simp [existsKey, head_object]
  · simp [existsKey, head_object, hs]

/-- C4 witness: a concrete non-404 head failure (HTTP 500) on a store
holding one unrelated object. -/
theorem c4_head_not_found_witness :
    put_bytes_atomic ⟨some 500, false, false, false⟩ [("x", ⟨[], [], ""⟩)] [7] "k"
        [] [] 0 =
      ⟨[("x", ⟨[], [], ""⟩)], [.head "k"], .error (.clientError 500)⟩ :=
  (c4_head_not_found [("x", ⟨[], [], ""⟩)] [7] "k" [] [] 0 500 (by decide)).2.2.1

/-! ### Claim C10 -/

/-- C10: with `required_columns` omitted, the required columns default to the
frame's own column list, so neither upload can ever fail with a
missing-columns validation error; an empty frame still fails with the
empty-payload error. -/
theorem c10_default_required_columns (f : Faults) (st : Store) (df : DataFrame)
    (key : String) (compress : Option String)
    (tags metadata : Option (List (String × String))) (nowMs gzMtime : Nat) :
    (∀ l, (put_csv f st df key compress none tags metadata nowMs gzMtime).result ≠
      .error (.validationFailed (.missingFields l))) ∧
    (∀ l, (put_parquet f st df key none tags metadata nowMs).result ≠
      .error (.validationFailed (.missingFields l))) ∧
    (df.empty = true →
      (put_csv f st df key compress none tags metadata nowMs gzMtime).result =
        .error (.validationFailed .emptyPayload) ∧
      (put_parquet f st df key none tags metadata nowMs).result =
        .error (.validationFailed .emptyPayload)) := by
  have hval : basic_validate df (pyOrList none df.columns) = .error .emptyPayload ∨
      basic_validate df (pyOrList none df.columns) = .ok () := by
    by_cases he : df.empty = true
    · exact Or.inl (by simp [basic_validate, he])
    · right
      have hfilter : df.columns.filter (fun c => !(df.columns.contains c)) = [] := by
        apply List.filter_eq_nil_iff.mpr
        intro a ha
        simp [ha]
      simp [basic_validate, he, pyOrList, hfilter]
  have hempty : df.empty = true →
      basic_validate df (pyOrList none df.columns) = .error .emptyPayload := by
    intro he
    simp [basic_validate, he]
  refine ⟨?_, ?_, ?_⟩
  · intro l
    rcases hval with hv | hv
    · simp [put_csv, hv]
    · simp only [put_csv, hv]
      exact put_bytes_atomic_not_validation f st _ key _ _ nowMs (.missingFields l)
  · intro l
    rcases hval with hv | hv
    · simp [put_parquet, hv]
    · simp only [put_parquet, hv]
      exact put_bytes_atomic_not_validation f st _ key _ _ nowMs (.missingFields l)
  · intro he
    constructor
    · simp [put_csv, hempty he]
    · simp [put_parquet, hempty he]

/-- C10 witness: a concrete non-empty frame uploaded with defaulted required
columns cannot produce a missing-columns error. -/
theorem c10_default_required_columns_witness :
    (put_csv noFaults [] ⟨["a"], [["1"]]⟩ "k" none none none none 0 0).result ≠
      .error (.validationFailed (.missingFields ["a"])) :=
  (c10_default_required_columns noFaults [] ⟨["a"], [["1"]]⟩ "k" none none none 0 0).1
    ["a"]

end S3Starter
